import Mathlib

/-!
Shallow embedding of `src/pdf_compressor.py` (PDF compression pipeline).

The PDF/image libraries (PyMuPDF, PIL) are modelled at their interfaces:
a raster image is its metadata (width, height, colour mode); the JPEG
encoder is an oracle function supplied as a parameter (its output size is
codec-determined, not computed here); the filesystem is a map from paths
to file sizes.  Python float arithmetic on sizes and scale factors is
modelled by exact rational (or integer) arithmetic.
-/

namespace PdfCompressor

/-- PIL resampling filters (only the identity of the filter matters here;
the source passes `Image.LANCZOS`). -/
inductive PILFilter where
  | lanczos
  | bicubic
  | bilinear
  | nearest
deriving DecidableEq

/-- PIL colour modes relevant to this pipeline.  `one` stands for PIL mode
"1" (bilevel). -/
inductive PILMode where
  | one
  | L
  | LA
  | P
  | RGB
  | RGBA
  | CMYK
  | YCbCr
deriving DecidableEq

/-- Whether a PIL mode carries an alpha channel (PIL: RGBA, LA are the
alpha-bearing modes among those modelled). -/
def hasAlpha : PILMode → Bool
  | .RGBA => true
  | .LA => true
  | _ => false

/-- Pillow's JPEG encoder accepts exactly the modes in its RAWMODE table
("1", "L", "RGB", "RGBX", "CMYK", "YCbCr"); for any other mode `img.save`
raises `OSError: cannot write mode ... as JPEG`. -/
def jpegSaveOk : PILMode → Bool
  | .one => true
  | .L => true
  | .RGB => true
  | .CMYK => true
  | .YCbCr => true
  | _ => false

/-- A decoded PIL image: dimensions, colour mode, and (for specification
purposes) which resampling filter, if any, last produced it. -/
structure PILImage where
  width : Nat
  height : Nat
  mode : PILMode
  lastFilter : Option PILFilter
deriving DecidableEq

/-- Models PIL `img.convert('RGB')`: total, keeps dimensions, drops alpha. -/
def PILImage.convertRGB (img : PILImage) : PILImage :=
  { img with mode := .RGB }

/-- Models PIL `img.resize((w, h), filter)`. -/
def PILImage.resize (img : PILImage) (w h : Nat) (f : PILFilter) : PILImage :=
  { img with width := w, height := h, lastFilter := some f }

/-- An encoded image byte string, modelled by its length, its container
format (`base_image["ext"]` from PyMuPDF / the stream format), and what it
decodes to (`none` models `Image.open` raising). -/
structure ImageBytes where
  len : Nat
  ext : String
  decode : Option PILImage
deriving DecidableEq

/-- Embedding of `compress_image(image_data, quality, dpi)`
(src/pdf_compressor.py lines 37-62).  `enc` is the JPEG encoder oracle
(`img.save(..., format='JPEG', quality=..., optimize=True, dpi=(dpi,dpi))`).
Any exception (decode failure, or a mode the JPEG encoder rejects) is
caught and the original bytes are returned. -/
def compress_image (enc : PILImage → Nat → Nat → ImageBytes)
    (image_data : ImageBytes) (quality : Nat) (dpi : Nat) : ImageBytes :=
  match image_data.decode with
  | none => image_data
  | some img =>
    let img := if img.mode = .RGBA then img.convertRGB else img
    if jpegSaveOk img.mode then enc img quality dpi else image_data

/-- One tier of the `quality_settings` table. -/
structure TierSettings where
  quality : Nat
  dpi : Nat
  max_dimension : Nat
deriving DecidableEq

/-- The `quality_settings` dict (src/pdf_compressor.py lines 92-98),
as a lookup returning `none` for keys not in the dict. -/
def quality_settings (level : Int) : Option TierSettings :=
  if level = 0 then some ⟨95, 300, 4000⟩
  else if level = 1 then some ⟨90, 250, 3000⟩
  else if level = 2 then some ⟨85, 200, 2500⟩
  else if level = 3 then some ⟨75, 150, 2000⟩
  else if level = 4 then some ⟨60, 100, 1500⟩
  else none

/-- `quality_settings.get(compression_level, quality_settings[3])`
(src/pdf_compressor.py line 100). -/
def settingsFor (level : Int) : TierSettings :=
  (quality_settings level).getD ⟨75, 150, 2000⟩

/-- A placement rectangle (`fitz.Rect`). -/
structure Rect where
  x0 : Nat
  y0 : Nat
  x1 : Nat
  y1 : Nat
deriving DecidableEq

/-- One embedded image occurrence on a page: its xref, the result of
`doc.extract_image(xref)` (`none` models the extraction raising), and
`page.get_image_rects(xref)`. -/
structure ImgEntry where
  xref : Nat
  extract : Option ImageBytes
  rects : List Rect
deriving DecidableEq

/-- Outcome of the per-image loop body for one image: either the image was
left untouched in the document, or its bytes were replaced by `newBytes`
inserted at `rect`. -/
inductive ImgOutcome where
  | skipped
  | replaced (newBytes : ImageBytes) (rect : Rect)
deriving DecidableEq

/-- Round-half-even of the exact rational `a / b` to the nearest integer:
the rounding used both by the IEEE-754 significand model below and by the
decimal formatting model (Python's float formatting). -/
def roundHalfEven (a b : Nat) : Nat :=
  let q := a / b
  let r := a % b
  if 2 * r < b then q
  else if b < 2 * r then q + 1
  else if q % 2 = 0 then q else q + 1

/-- Fuelled binary halving; `log2fuel n n` computes the floor of the
binary logarithm of `n` for `n ≥ 1` (structural recursion on the fuel
keeps it kernel-reducible). -/
def log2fuel : Nat → Nat → Nat
  | 0, _ => 0
  | f + 1, n => if n ≤ 1 then 0 else log2fuel f (n / 2) + 1

/-- Floor of the binary logarithm (0 at 0). -/
def natLog2 (n : Nat) : Nat := log2fuel n n

/-- The IEEE-754 binary64 (double) value nearest the fraction `a / b`
(for `b ≥ 1`), as a dyadic pair `(M, ex)` denoting `M * 2^ex`, where `M`
is the 53-bit significand obtained by round-to-nearest, ties-to-even —
the rounding CPython's float division and multiplication perform.  The
model assumes the value is in the doubles' normal range, which holds
throughout this pipeline's pixel-dimension arithmetic. -/
def flFrac (a b : Nat) : Nat × Int :=
  if a = 0 then (0, 0)
  else
    let e0 : Int := (natLog2 a : Int) - (natLog2 b : Int)
    let e : Int :=
      if 0 ≤ e0 then (if 2 ^ e0.toNat * b ≤ a then e0 else e0 - 1)
      else (if b ≤ a * 2 ^ (-e0).toNat then e0 else e0 - 1)
    let s : Int := 52 - e
    let M : Nat :=
      if 0 ≤ s then roundHalfEven (a * 2 ^ s.toNat) b
      else roundHalfEven a (b * 2 ^ (-s).toNat)
    (M, -s)

/-- Python `int(dim * (maxDim / currentMax))` evaluated in IEEE-754
double precision exactly as CPython does: the true division correctly
rounded to a double, the product of `dim` with that double correctly
rounded to a double, then `int()` truncation toward zero. -/
def py_scaled_dim (dim maxDim currentMax : Nat) : Nat :=
  let scale := flFrac maxDim currentMax
  let a2 := dim * scale.1
  let prod :=
    if 0 ≤ scale.2 then flFrac (a2 * 2 ^ scale.2.toNat) 1
    else flFrac a2 (2 ^ (-scale.2).toNat)
  if 0 ≤ prod.2 then prod.1 * 2 ^ prod.2.toNat
  else prod.1 / 2 ^ (-prod.2).toNat

/-- The image transformations applied before the JPEG re-encode
(src/pdf_compressor.py lines 140-153): flatten RGBA to RGB, then, if the
larger dimension exceeds `max_dimension`, downscale with LANCZOS to
`int(dim * (max_dimension / current_max))` on each axis, the scale factor
and the products computed in double-precision float arithmetic as in the
Python source (`py_scaled_dim`). -/
def transformed (s : TierSettings) (img0 : PILImage) : PILImage :=
  let img := if img0.mode = .RGBA then img0.convertRGB else img0
  let current_max := max img.width img.height
  if s.max_dimension < current_max then
    img.resize (py_scaled_dim img.width s.max_dimension current_max)
      (py_scaled_dim img.height s.max_dimension current_max) .lanczos
  else img

/-- The re-encode-and-maybe-commit stage for an image that passed both
size thresholds (src/pdf_compressor.py lines 140-176), as observed from
outside the per-image `try` (a JPEG-encoder failure is caught and leaves
the image untouched).  The replacement is committed only when
`len(compressed_bytes) / len(image_bytes) < 0.95`; its rectangle is
`page.get_image_rects(xref)[0]` or the fallback `fitz.Rect(0,0,100,100)`. -/
def reencode_stage (enc : PILImage → Nat → ImageBytes) (s : TierSettings)
    (rects : List Rect) (bytes : ImageBytes) (img : PILImage) : ImgOutcome :=
  let img2 := transformed s img
  if jpegSaveOk img2.mode then
    let compressed := enc img2 s.quality
    if (compressed.len : ℚ) / (bytes.len : ℚ) < 0.95 then
      .replaced compressed (rects.headD ⟨0, 0, 100, 100⟩)
    else .skipped
  else .skipped

/-- The body of the per-image loop (src/pdf_compressor.py lines 119-176)
before its enclosing `except` clause: `.error` marks the points where the
Python code raises (extraction failure, `Image.open` failure, JPEG save
rejecting the mode); `.ok .skipped` marks the explicit `continue`s
(size threshold, dimension threshold, insufficient compression ratio). -/
def process_image_raw (enc : PILImage → Nat → ImageBytes) (s : TierSettings)
    (e : ImgEntry) : Except String ImgOutcome :=
  match e.extract with
  | none => .error "extract_image failed"
  | some bytes =>
    if bytes.len < 10000 then .ok .skipped
    else
      match bytes.decode with
      | none => .error "cannot identify image file"
      | some img =>
        if img.width < 100 ∨ img.height < 100 then .ok .skipped
        else
          let img2 := transformed s img
          if jpegSaveOk img2.mode then
            let compressed := enc img2 s.quality
            if (compressed.len : ℚ) / (bytes.len : ℚ) < 0.95 then
              .ok (.replaced compressed (e.rects.headD ⟨0, 0, 100, 100⟩))
            else .ok .skipped
          else .error "cannot write mode as JPEG"

/-- The per-image loop body including its `except Exception: ... continue`
(src/pdf_compressor.py lines 178-180): any per-image failure becomes a
skip. -/
def process_image (enc : PILImage → Nat → ImageBytes) (s : TierSettings)
    (e : ImgEntry) : ImgOutcome :=
  match process_image_raw enc s e with
  | .ok o => o
  | .error _ => .skipped

/-- The bytes standing at this image's position in the document after the
pass: the committed replacement, or the original stream. -/
def image_bytes_after (enc : PILImage → Nat → ImageBytes) (s : TierSettings)
    (e : ImgEntry) : Option ImageBytes :=
  match process_image enc s e with
  | .replaced c _ => some c
  | .skipped => e.extract

/-- One page of the document model: its `page.get_images(full=True)` list. -/
structure PageModel where
  images : List ImgEntry
deriving DecidableEq

/-- The inner loop over `image_list` for one page. -/
def process_page (enc : PILImage → Nat → ImageBytes) (s : TierSettings)
    (p : PageModel) : List ImgOutcome :=
  p.images.map (process_image enc s)

/-- The loop over `range(len(doc))` (src/pdf_compressor.py lines 114-180). -/
def rewrite_document (enc : PILImage → Nat → ImageBytes) (s : TierSettings)
    (pages : List PageModel) : List (List ImgOutcome) :=
  pages.map (process_page enc s)

/-- The `images_compressed` flag (set on any committed replacement).  The
source branches on it at lines 190-194 but both branches perform the same
`doc.save`. -/
def images_compressed (outs : List (List ImgOutcome)) : Bool :=
  outs.any (fun page => page.any (fun o => match o with
    | .replaced _ _ => true
    | .skipped => false))

/-- The filesystem, as a map from paths to file sizes (`none` = the path
does not exist). -/
def FS : Type := String → Option Nat

/-- A filesystem with no files. -/
def FS.empty : FS := fun _ => none

/-- Writing a file of size `n` at path `p`. -/
def FS.insert (fs : FS) (p : String) (n : Nat) : FS :=
  fun q => if q = p then some n else fs q

/-- `os.remove(p)` (modelled total; the source wraps its last use in a
bare `except: pass`). -/
def FS.erase (fs : FS) (p : String) : FS :=
  fun q => if q = p then none else fs q

/-- Outcome of `doc.save(output_file, **save_options)`: success writes a
file of the given size; failure raises, possibly leaving a partially
written file of size `partialSize` on disk. -/
inductive SaveOutcome where
  | ok (size : Nat)
  | fail (partialSize : Option Nat)

/-- The environment of one `compress_pdf_file` call: dependency
availability, whether `fitz.open` succeeds, the document's pages, the JPEG
encoder oracle, and the save oracle (whose outcome may depend on the
rewritten document). -/
structure CompressEnv where
  deps : Bool
  openOk : Bool
  pages : List PageModel
  enc : PILImage → Nat → ImageBytes
  save : List (List ImgOutcome) → SaveOutcome

/-- The `except` clause of `compress_pdf_file` (src/pdf_compressor.py
lines 216-220): if a file exists at the output path and it is not the
input, remove it. -/
def cleanup (fs : FS) (input output : String) : FS :=
  if (fs output).isSome ∧ output ≠ input then fs.erase output else fs

/-- `Path(input_file).with_stem(stem + "_compressed")` (src line 89):
inserts `_compressed` before the final extension of the last path
component (or appends it when there is no extension). -/
def defaultOutput (input : String) : String :=
  let cs := input.toList
  match cs.reverse.span (fun c => c ≠ '.' ∧ c ≠ '/') with
  | (_, []) => String.mk (cs ++ "_compressed".toList)
  | (revExt, c :: revStem) =>
    if c = '.' then
      String.mk (revStem.reverse ++ "_compressed".toList ++ '.' :: revExt.reverse)
    else String.mk (cs ++ "_compressed".toList)

/-- `if not output_file: output_file = ...` (src lines 87-89); Python's
`not` also treats the empty string as missing. -/
def resolveOutput (input : String) (outOpt : Option String) : String :=
  match outOpt with
  | none => defaultOutput input
  | some s => if s.isEmpty then defaultOutput input else s

/-- The tail of the `try` block after the document pass (src lines
182-211) together with the `except` fallback (lines 213-221): save the
document, compare `os.path.getsize` of input and output, keep the smaller;
a save failure (or the input vanishing before `getsize`) falls into the
`except` clause, which removes the file at the output path and returns the
input path. -/
def finalize (fs : FS) (input output : String) (saveRes : SaveOutcome) :
    FS × String :=
  match saveRes with
  | .fail partSize =>
    let fs1 := match partSize with
      | some n => FS.insert fs output n
      | none => fs
    (cleanup fs1 input output, input)
  | .ok n =>
    let fs1 := FS.insert fs output n
    match fs1 input with
    | none => (cleanup fs1 input output, input)
    | some inSize =>
      if n < inSize then (fs1, output)
      else if output ≠ input then (FS.erase fs1 output, input)
      else (fs1, input)

/-- Embedding of `compress_pdf_file(input_file, output_file,
compression_level)` (src/pdf_compressor.py lines 64-221): dependency
check, output-name resolution, tier lookup with fallback to tier 3,
whole-document image rewrite, save, size comparison, and the
catch-all `except` that removes the output and returns the input path. -/
def compress_pdf_file (env : CompressEnv) (fs : FS) (input : String)
    (outOpt : Option String) (level : Int) : FS × String :=
  if env.deps = false then (fs, input)
  else
    let output := resolveOutput input outOpt
    if env.openOk = false then (cleanup fs input output, input)
    else
      let outcomes := rewrite_document env.enc (settingsFor level) env.pages
      finalize fs input output (env.save outcomes)

/-- `f"{n / d:.1f}"`: the exact quotient formatted with one decimal
digit, rounding half-to-even as CPython does (for the divisors used below
`n / d` is exactly representable as a double, so `:.1f` rounds the exact
value). -/
def fmt1 (n d : Nat) : String :=
  let t := roundHalfEven (10 * n) d
  toString (t / 10) ++ "." ++ toString (t % 10)

/-- Embedding of `format_file_size(size_bytes)` (src/pdf_compressor.py
lines 248-265). -/
def format_file_size (size_bytes : Nat) : String :=
  if size_bytes < 1024 then toString size_bytes ++ " B"
  else if size_bytes < 1024 * 1024 then fmt1 size_bytes 1024 ++ " KB"
  else if size_bytes < 1024 * 1024 * 1024 then
    fmt1 size_bytes (1024 * 1024) ++ " MB"
  else fmt1 size_bytes (1024 * 1024 * 1024) ++ " GB"

example : format_file_size 500 = "500 B" := by decide
example : format_file_size 2048 = "2.0 KB" := by decide
example : format_file_size 1280 = "1.2 KB" := by decide

/-- C9: for every non-negative byte count `n`, `format_file_size n` is the
raw count with a " B" suffix below 1024, and otherwise the value divided by
1024, 1024², or 1024³ (for `n` below 1024², below 1024³, and at least
1024³ respectively) formatted to one decimal place with the matching
" KB" / " MB" / " GB" suffix.  It is a pure, deterministic Lean function. -/
theorem format_file_size_spec (n : Nat) :
    format_file_size n =
      if n < 1024 then toString n ++ " B"
      else if n < 1024 ^ 2 then fmt1 n 1024 ++ " KB"
      else if n < 1024 ^ 3 then fmt1 n (1024 ^ 2) ++ " MB"
      else fmt1 n (1024 ^ 3) ++ " GB" := by
  have h2 : (1024 * 1024 : Nat) = 1024 ^ 2 := by norm_num
  have h3 : (1024 * 1024 * 1024 : Nat) = 1024 ^ 3 := by norm_num
  rw [format_file_size, h3, h2]

/-- C10: for every `compression_level` outside 0–4 (negative values
included), the settings lookup falls back to the tier-3 settings
(quality 75, dpi 150, max_dimension 2000) and `compress_pdf_file` behaves
identically to a call with `compression_level = 3`; the level is never
rejected. -/
theorem compress_level_out_of_range (level : Int) (h : level < 0 ∨ 4 < level) :
    settingsFor level = ⟨75, 150, 2000⟩ ∧
    settingsFor level = settingsFor 3 ∧
    ∀ env fs input outOpt,
      compress_pdf_file env fs input outOpt level =
        compress_pdf_file env fs input outOpt 3 := by
  have hq : quality_settings level = none := by
    unfold quality_settings
    rw [if_neg (by omega : ¬ level = 0), if_neg (by omega : ¬ level = 1),
      if_neg (by omega : ¬ level = 2), if_neg (by omega : ¬ level = 3),
      if_neg (by omega : ¬ level = 4)]
  have h3 : settingsFor level = settingsFor 3 := by
    unfold settingsFor
    rw [hq]
    decide
  refine ⟨?_, h3, ?_⟩
  · unfold settingsFor
    rw [hq]
    rfl
  · intro env fs input outOpt
    unfold compress_pdf_file
    rw [h3]

/-- Witness for C10 at the concrete out-of-range level `-1`. -/
theorem compress_level_out_of_range_witness :
    settingsFor (-1) = ⟨75, 150, 2000⟩ ∧
    settingsFor (-1) = settingsFor 3 ∧
    ∀ env fs input outOpt,
      compress_pdf_file env fs input outOpt (-1) =
        compress_pdf_file env fs input outOpt 3 :=
  compress_level_out_of_range (-1) (Or.inl (by decide))

/-- C7: for every byte input to `compress_image` that fails to decode as a
raster image, the call returns the original input bytes unchanged (the
failure is caught, not raised, and is confined to this one image). -/
theorem compress_image_decode_failure (enc : PILImage → Nat → Nat → ImageBytes)
    (data : ImageBytes) (q d : Nat) (h : data.decode = none) :
    compress_image enc data q d = data := by
  unfold compress_image
  rw [h]

/-- Witness for C7 on concrete undecodable bytes. -/
theorem compress_image_decode_failure_witness :
    compress_image (fun _ _ _ => ⟨1, "jpeg", none⟩) ⟨5000, "bin", none⟩ 85 150 =
      ⟨5000, "bin", none⟩ :=
  compress_image_decode_failure (fun _ _ _ => ⟨1, "jpeg", none⟩)
    ⟨5000, "bin", none⟩ 85 150 rfl

/-- C5 counterexample: the claim states the output dimensions of a
downscaled image are `round(original * (max_dimension / larger_dimension))`
on both axes.  For a 150×2001 image at tier 3 (max_dimension 2000) the
code computes `int(150 * (2000 / 2001)) = int(149.925...) = 149`
(truncation), while the claimed rounding gives 150. -/
theorem resize_rounding_cex :
    (transformed (settingsFor 3) ⟨150, 2001, .RGB, none⟩).width = 149 ∧
    roundHalfEven (150 * 2000) 2001 = 150 ∧ (149 : Nat) ≠ 150 := by
  refine ⟨by decide, by decide, by decide⟩

/-- C5 amended: for every image whose larger dimension exceeds the tier's
`max_dimension`, the image is downscaled with Lanczos resampling and the
output dimensions are `int(original * (max_dimension / larger_dimension))`
computed in IEEE-754 double precision — truncation toward zero of the
double product of the original dimension with the double quotient, not
rounding of the exact ratio — on both axes; an image whose larger
dimension does not exceed `max_dimension` keeps its original
dimensions. -/
theorem resize_dims_amended (s : TierSettings) (img : PILImage) :
    (s.max_dimension < max img.width img.height →
      (transformed s img).width =
        py_scaled_dim img.width s.max_dimension (max img.width img.height) ∧
      (transformed s img).height =
        py_scaled_dim img.height s.max_dimension (max img.width img.height) ∧
      (transformed s img).lastFilter = some .lanczos) ∧
    (max img.width img.height ≤ s.max_dimension →
      (transformed s img).width = img.width ∧
      (transformed s img).height = img.height ∧
      (transformed s img).lastFilter = img.lastFilter) := by
  constructor
  · intro h
    by_cases hm : img.mode = .RGBA <;>
      simp [transformed, PILImage.convertRGB, PILImage.resize, hm, h]
  · intro h
    by_cases hm : img.mode = .RGBA <;>
      simp [transformed, PILImage.convertRGB, PILImage.resize, hm,
        Nat.not_lt.mpr h]

/-- Witness for C5 amended: a 531×2124 RGB image at tier 3 is downscaled
with Lanczos to 499×1999 — the program's float results, which differ from
both exact truncation (500×2000) and exact rounding. -/
theorem resize_dims_amended_witness :
    py_scaled_dim 531 2000 2124 = 499 ∧
    py_scaled_dim 2124 2000 2124 = 1999 ∧
    ((transformed (settingsFor 3) ⟨531, 2124, .RGB, none⟩).width =
        py_scaled_dim 531 2000 2124 ∧
      (transformed (settingsFor 3) ⟨531, 2124, .RGB, none⟩).height =
        py_scaled_dim 2124 2000 2124 ∧
      (transformed (settingsFor 3) ⟨531, 2124, .RGB, none⟩).lastFilter =
        some .lanczos) :=
  ⟨by decide, by decide,
    (resize_dims_amended (settingsFor 3) ⟨531, 2124, .RGB, none⟩).1
      (by decide)⟩

/-- C4: the per-image decision policy skips (never re-encodes or replaces)
any image under 10,000 bytes and any image with width or height under 100
pixels, for every tier; every other (decodable) image proceeds to the
re-encoding stage, and the decision is independent of the image's current
container format. -/
theorem decision_policy_thresholds (enc : PILImage → Nat → ImageBytes)
    (s : TierSettings) (e : ImgEntry) (bytes : ImageBytes)
    (hx : e.extract = some bytes) :
    (bytes.len < 10000 → process_image enc s e = .skipped) ∧
    (∀ img, bytes.decode = some img → img.width < 100 ∨ img.height < 100 →
      process_image enc s e = .skipped) ∧
    (∀ img, bytes.decode = some img → 10000 ≤ bytes.len → 100 ≤ img.width →
      100 ≤ img.height →
      process_image enc s e = reencode_stage enc s e.rects bytes img) ∧
    (∀ x, process_image enc s ⟨e.xref, some { bytes with ext := x }, e.rects⟩ =
      process_image enc s e) := by
  refine ⟨?_, ?_, ?_, ?_⟩
  · intro hlen
    simp [process_image, process_image_raw, hx, hlen]
  · intro img hdec hdim
    by_cases hlen : bytes.len < 10000 <;>
      rcases hdim with h | h <;>
      simp [process_image, process_image_raw, hx, hdec, hlen, h]
  · intro img hdec hlen hw hh
    by_cases hj : jpegSaveOk (transformed s img).mode <;>
      by_cases hr : ((enc (transformed s img) s.quality).len : ℚ) /
          (bytes.len : ℚ) < 0.95 <;>
      simp [process_image, process_image_raw, reencode_stage, hx, hdec,
        Nat.not_lt.mpr hlen, Nat.not_lt.mpr hw, Nat.not_lt.mpr hh, hj, hr]
  · intro x
    rcases e with ⟨xr, ex, rects⟩
    rcases bytes with ⟨l, ex0, dec⟩
    simp only [ImgEntry.extract] at hx
    subst hx
    simp [process_image, process_image_raw]

/-- Witness for C4: a 50-byte icon is skipped at tier 3. -/
theorem decision_policy_thresholds_witness :
    process_image (fun _ _ => ⟨1, "jpeg", none⟩) (settingsFor 3)
      ⟨1, some ⟨50, "png", some ⟨20, 20, .RGB, none⟩⟩, []⟩ = .skipped :=
  (decision_policy_thresholds (fun _ _ => ⟨1, "jpeg", none⟩) (settingsFor 3)
    ⟨1, some ⟨50, "png", some ⟨20, 20, .RGB, none⟩⟩, []⟩
    ⟨50, "png", some ⟨20, 20, .RGB, none⟩⟩ rfl).1 (by decide)

/-- C3: an eligible, decodable image whose transformed form the JPEG
encoder accepts is committed into the document if and only if
`len(compressed_bytes) / len(original_bytes) < 0.95`; at a ratio of 0.95
or more the original bytes stay in the document untouched, and any
committed replacement anywhere satisfies the ratio bound. -/
theorem acceptance_ratio (enc : PILImage → Nat → ImageBytes)
    (s : TierSettings) (e : ImgEntry) (bytes : ImageBytes) (img : PILImage)
    (hx : e.extract = some bytes) (hd : bytes.decode = some img)
    (hlen : 10000 ≤ bytes.len) (hw : 100 ≤ img.width) (hh : 100 ≤ img.height)
    (hj : jpegSaveOk (transformed s img).mode = true) :
    (((enc (transformed s img) s.quality).len : ℚ) / (bytes.len : ℚ) < 0.95 →
      process_image enc s e = .replaced (enc (transformed s img) s.quality)
        (e.rects.headD ⟨0, 0, 100, 100⟩)) ∧
    (¬ ((enc (transformed s img) s.quality).len : ℚ) / (bytes.len : ℚ) < 0.95 →
      process_image enc s e = .skipped ∧
      image_bytes_after enc s e = some bytes) ∧
    (∀ e2 b2 c r, e2.extract = some b2 →
      process_image enc s e2 = .replaced c r →
      (c.len : ℚ) / (b2.len : ℚ) < 0.95) := by
  refine ⟨?_, ?_, ?_⟩
  · intro hr
    simp [process_image, process_image_raw, hx, hd, Nat.not_lt.mpr hlen,
      Nat.not_lt.mpr hw, Nat.not_lt.mpr hh, hj, hr]
  · intro hr
    refine ⟨?_, ?_⟩
    · simp [process_image, process_image_raw, hx, hd, Nat.not_lt.mpr hlen,
        Nat.not_lt.mpr hw, Nat.not_lt.mpr hh, hj, hr]
    · simp [image_bytes_after, process_image, process_image_raw, hx, hd,
        Nat.not_lt.mpr hlen, Nat.not_lt.mpr hw, Nat.not_lt.mpr hh, hj, hr]
  · intro e2 b2 c r hx2 hp
    by_cases hl2 : b2.len < 10000
    · simp [process_image, process_image_raw, hx2, hl2] at hp
    · cases hdec : b2.decode with
      | none => simp [process_image, process_image_raw, hx2, hl2, hdec] at hp
      | some img2 =>
        by_cases hdim : img2.width < 100 ∨ img2.height < 100
        · simp [process_image, process_image_raw, hx2, hl2, hdec, hdim] at hp
        · by_cases hj2 : jpegSaveOk (transformed s img2).mode
          · by_cases hr2 : ((enc (transformed s img2) s.quality).len : ℚ) /
                (b2.len : ℚ) < 0.95
            · simp [process_image, process_image_raw, hx2, hl2, hdec, hdim,
                hj2, hr2] at hp
              rw [← hp.1]
              exact hr2
            · simp [process_image, process_image_raw, hx2, hl2, hdec, hdim,
                hj2, hr2] at hp
          · simp [process_image, process_image_raw, hx2, hl2, hdec, hdim,
              hj2] at hp

/-- Witness for C3: a 20,000-byte 500×400 RGB image whose re-encoding is
1,000 bytes (ratio 0.05) is committed at its placement rectangle. -/
theorem acceptance_ratio_witness :
    process_image (fun _ _ => ⟨1000, "jpeg", none⟩) (settingsFor 3)
      ⟨3, some ⟨20000, "png", some ⟨500, 400, .RGB, none⟩⟩, [⟨0, 0, 50, 50⟩]⟩ =
      .replaced ⟨1000, "jpeg", none⟩ ⟨0, 0, 50, 50⟩ :=
  (acceptance_ratio (fun _ _ => ⟨1000, "jpeg", none⟩) (settingsFor 3)
    ⟨3, some ⟨20000, "png", some ⟨500, 400, .RGB, none⟩⟩, [⟨0, 0, 50, 50⟩]⟩
    ⟨20000, "png", some ⟨500, 400, .RGB, none⟩⟩ ⟨500, 400, .RGB, none⟩
    rfl rfl (by decide) (by decide) (by decide) rfl).1 (by norm_num)

/-- C6: the whole-document pass processes every image of every page; a
per-image failure (extraction, decode, or codec error — any `.error` of
the raw loop body) is caught and turns into a skip of that image only,
never aborting the remaining images or pages. -/
theorem per_image_failure_isolation (enc : PILImage → Nat → ImageBytes)
    (s : TierSettings) (pages : List PageModel) :
    (rewrite_document enc s pages).length = pages.length ∧
    (∀ (pIdx : Nat) (pg : PageModel), pages[pIdx]? = some pg →
      (rewrite_document enc s pages)[pIdx]? = some (process_page enc s pg) ∧
      (process_page enc s pg).length = pg.images.length ∧
      ∀ (iIdx : Nat) (e : ImgEntry), pg.images[iIdx]? = some e →
        (process_page enc s pg)[iIdx]? = some (process_image enc s e)) ∧
    (∀ e msg, process_image_raw enc s e = .error msg →
      process_image enc s e = .skipped) := by
  refine ⟨?_, ?_, ?_⟩
  · simp [rewrite_document]
  · intro pIdx pg hpg
    refine ⟨?_, ?_, ?_⟩
    · simp [rewrite_document, List.getElem?_map, hpg]
    · simp [process_page]
    · intro iIdx e he
      simp [process_page, List.getElem?_map, he]
  · intro e msg hmsg
    simp [process_image, hmsg]

/-- Witness for C6: an entry whose extraction raises is skipped. -/
theorem per_image_failure_isolation_witness :
    process_image (fun _ _ => ⟨1, "jpeg", none⟩) (settingsFor 3)
      ⟨9, none, []⟩ = .skipped :=
  (per_image_failure_isolation (fun _ _ => ⟨1, "jpeg", none⟩) (settingsFor 3)
    []).2.2 ⟨9, none, []⟩ "extract_image failed" rfl

/-- C8 counterexample: the claim states every eligible image with an alpha
channel is flattened to RGB and re-encoded as an RGB JPEG with no error.
A 20,000-byte 200×200 image in PIL mode `LA` (greyscale + alpha) carries
an alpha channel, but the code only converts mode `RGBA`; the JPEG encoder
then raises ("cannot write mode LA as JPEG"), which the per-image handler
catches: the image is skipped and its original bytes kept, not replaced by
an RGB JPEG.  The standalone `compress_image` likewise returns the
original bytes for it. -/
theorem alpha_flatten_cex :
    hasAlpha PILMode.LA = true ∧
    process_image_raw (fun _ _ => ⟨100, "jpeg", none⟩) (settingsFor 3)
      ⟨7, some ⟨20000, "png", some ⟨200, 200, .LA, none⟩⟩, [⟨0, 0, 100, 100⟩]⟩ =
      .error "cannot write mode as JPEG" ∧
    process_image (fun _ _ => ⟨100, "jpeg", none⟩) (settingsFor 3)
      ⟨7, some ⟨20000, "png", some ⟨200, 200, .LA, none⟩⟩, [⟨0, 0, 100, 100⟩]⟩ =
      .skipped ∧
    image_bytes_after (fun _ _ => ⟨100, "jpeg", none⟩) (settingsFor 3)
      ⟨7, some ⟨20000, "png", some ⟨200, 200, .LA, none⟩⟩, [⟨0, 0, 100, 100⟩]⟩ =
      some ⟨20000, "png", some ⟨200, 200, .LA, none⟩⟩ ∧
    compress_image (fun _ _ _ => ⟨100, "jpeg", none⟩)
      ⟨20000, "png", some ⟨200, 200, .LA, none⟩⟩ 75 150 =
      ⟨20000, "png", some ⟨200, 200, .LA, none⟩⟩ :=
  ⟨rfl, rfl, rfl, rfl, rfl⟩

/-- C8 amended: for every eligible image in mode RGBA (the alpha mode the
code flattens), the image is converted to opaque RGB before JPEG
re-encoding, the per-image pass raises no error (the raw loop body
returns `.ok`), and `compress_image` re-encodes the flattened RGB image;
alpha-bearing images in other modes (such as LA) are not flattened and
their JPEG encode failure is caught as a per-image skip. -/
theorem alpha_flatten_amended (enc : PILImage → Nat → ImageBytes)
    (encD : PILImage → Nat → Nat → ImageBytes) (s : TierSettings)
    (e : ImgEntry) (bytes : ImageBytes) (img : PILImage) (q d : Nat)
    (hx : e.extract = some bytes) (hd : bytes.decode = some img)
    (hm : img.mode = .RGBA) (hlen : 10000 ≤ bytes.len)
    (hw : 100 ≤ img.width) (hh : 100 ≤ img.height) :
    (transformed s img).mode = .RGB ∧
    (∃ o, process_image_raw enc s e = .ok o) ∧
    compress_image encD bytes q d = encD img.convertRGB q d := by
  have hmode : (transformed s img).mode = .RGB := by
    simp only [transformed, PILImage.convertRGB, PILImage.resize, hm,
      if_true, reduceIte]
    split <;> rfl
  refine ⟨hmode, ?_, ?_⟩
  · by_cases hr : ((enc (transformed s img) s.quality).len : ℚ) /
        (bytes.len : ℚ) < 0.95
    · exact ⟨.replaced (enc (transformed s img) s.quality)
        (e.rects.headD ⟨0, 0, 100, 100⟩),
        by simp [process_image_raw, hx, hd, Nat.not_lt.mpr hlen,
          Nat.not_lt.mpr hw, Nat.not_lt.mpr hh, hmode, jpegSaveOk, hr]⟩
    · exact ⟨.skipped,
        by simp [process_image_raw, hx, hd, Nat.not_lt.mpr hlen,
          Nat.not_lt.mpr hw, Nat.not_lt.mpr hh, hmode, jpegSaveOk, hr]⟩
  · simp [compress_image, hd, hm, PILImage.convertRGB, jpegSaveOk]

/-- Witness for C8 amended, on a concrete 200×200 RGBA image. -/
theorem alpha_flatten_amended_witness :
    (transformed (settingsFor 3) ⟨200, 200, .RGBA, none⟩).mode = .RGB ∧
    (∃ o, process_image_raw (fun _ _ => ⟨100, "jpeg", none⟩) (settingsFor 3)
      ⟨7, some ⟨20000, "png", some ⟨200, 200, .RGBA, none⟩⟩, []⟩ = .ok o) ∧
    compress_image (fun _ _ _ => ⟨100, "jpeg", none⟩)
      ⟨20000, "png", some ⟨200, 200, .RGBA, none⟩⟩ 75 150 =
      (fun _ _ _ => ⟨100, "jpeg", none⟩)
        (PILImage.convertRGB ⟨200, 200, .RGBA, none⟩) 75 150 :=
  alpha_flatten_amended (fun _ _ => ⟨100, "jpeg", none⟩)
    (fun _ _ _ => ⟨100, "jpeg", none⟩) (settingsFor 3)
    ⟨7, some ⟨20000, "png", some ⟨200, 200, .RGBA, none⟩⟩, []⟩
    ⟨20000, "png", some ⟨200, 200, .RGBA, none⟩⟩ ⟨200, 200, .RGBA, none⟩
    75 150 rfl rfl rfl (by decide) (by decide) (by decide)

theorem FS.insert_self (fs : FS) (p : String) (n : Nat) :
    (fs.insert p n) p = some n := by
  simp [FS.insert]

theorem FS.insert_ne (fs : FS) (p : String) (n : Nat) (q : String)
    (h : q ≠ p) : (fs.insert p n) q = fs q := by
  simp [FS.insert, h]

theorem FS.erase_self (fs : FS) (p : String) : (fs.erase p) p = none := by
  simp [FS.erase]

theorem FS.erase_ne (fs : FS) (p q : String) (h : q ≠ p) :
    (fs.erase p) q = fs q := by
  simp [FS.erase, h]

theorem cleanup_preserves_input (fs : FS) (input output : String) :
    (cleanup fs input output) input = fs input := by
  unfold cleanup
  by_cases h : (fs output).isSome ∧ output ≠ input
  · rw [if_pos h]
    exact FS.erase_ne fs output input (Ne.symm h.2)
  · rw [if_neg h]

theorem cleanup_output_none (fs : FS) (input output : String)
    (h : output ≠ input) : (cleanup fs input output) output = none := by
  unfold cleanup
  by_cases hs : (fs output).isSome
  · rw [if_pos ⟨hs, h⟩]
    exact FS.erase_self fs output
  · rw [if_neg (fun hc => hs hc.1)]
    exact Option.not_isSome_iff_eq_none.mp hs

theorem compress_deps_missing (env : CompressEnv) (fs : FS) (input : String)
    (outOpt : Option String) (level : Int) (h : env.deps = false) :
    compress_pdf_file env fs input outOpt level = (fs, input) := by
  simp [compress_pdf_file, h]

theorem compress_open_failed (env : CompressEnv) (fs : FS) (input : String)
    (outOpt : Option String) (level : Int) (hdeps : env.deps = true)
    (hopen : env.openOk = false) :
    compress_pdf_file env fs input outOpt level =
      (cleanup fs input (resolveOutput input outOpt), input) := by
  simp [compress_pdf_file, hdeps, hopen]

theorem compress_eq_finalize (env : CompressEnv) (fs : FS) (input : String)
    (outOpt : Option String) (level : Int) (hdeps : env.deps = true)
    (hopen : env.openOk = true) :
    compress_pdf_file env fs input outOpt level =
      finalize fs input (resolveOutput input outOpt)
        (env.save (rewrite_document env.enc (settingsFor level) env.pages)) := by
  simp [compress_pdf_file, hdeps, hopen]

theorem finalize_result_exists (fs : FS) (input output : String)
    (saveRes : SaveOutcome) (m : Nat) (hin : fs input = some m) :
    ∃ sz, (finalize fs input output saveRes).1
      (finalize fs input output saveRes).2 = some sz := by
  cases saveRes with
  | fail part =>
    cases part with
    | none =>
      refine ⟨m, ?_⟩
      show (cleanup fs input output) input = some m
      rw [cleanup_preserves_input]
      exact hin
    | some k =>
      by_cases hoi : output = input
      · refine ⟨k, ?_⟩
        show (cleanup (FS.insert fs output k) input output) input = some k
        rw [cleanup_preserves_input, hoi, FS.insert_self]
      · refine ⟨m, ?_⟩
        show (cleanup (FS.insert fs output k) input output) input = some m
        rw [cleanup_preserves_input, FS.insert_ne _ _ _ _ (Ne.symm hoi)]
        exact hin
  | ok n =>
    by_cases hoi : output = input
    · subst hoi
      refine ⟨n, ?_⟩
      simp [finalize, FS.insert_self]
    · have h1 : (FS.insert fs output n) input = some m := by
        rw [FS.insert_ne _ _ _ _ (Ne.symm hoi)]
        exact hin
      by_cases hnm : n < m
      · refine ⟨n, ?_⟩
        simp [finalize, h1, hnm, FS.insert_self]
      · refine ⟨m, ?_⟩
        simp [finalize, h1, hnm, hoi, FS.erase_ne _ _ _ (Ne.symm hoi)]

theorem finalize_fail_cleanup (fs : FS) (input output : String)
    (part : Option Nat) :
    (finalize fs input output (.fail part)).2 = input ∧
    (output ≠ input →
      (finalize fs input output (.fail part)).1 output = none) := by
  constructor
  · cases part <;> rfl
  · intro hne
    cases part with
    | none => exact cleanup_output_none fs input output hne
    | some k =>
      show (cleanup (FS.insert fs output k) input output) output = none
      exact cleanup_output_none _ input output hne

/-- C1: when the input file exists, `compress_pdf_file` always returns the
path of an existing file (it is a total Lean function, so no exception
escapes the call): when dependencies are unavailable it returns the input
path immediately with the filesystem untouched; on a document-open failure
or a save failure it removes whatever file stands at the (non-input)
output path — in particular any partially written output — and returns the
original input path. -/
theorem compress_error_fallback (env : CompressEnv) (fs : FS) (input : String)
    (outOpt : Option String) (level : Int) (m : Nat)
    (hin : fs input = some m) :
    (∃ sz, (compress_pdf_file env fs input outOpt level).1
      (compress_pdf_file env fs input outOpt level).2 = some sz) ∧
    (env.deps = false →
      compress_pdf_file env fs input outOpt level = (fs, input)) ∧
    (env.deps = true → env.openOk = false →
      (compress_pdf_file env fs input outOpt level).2 = input ∧
      (resolveOutput input outOpt ≠ input →
        (compress_pdf_file env fs input outOpt level).1
          (resolveOutput input outOpt) = none)) ∧
    (∀ part, env.deps = true → env.openOk = true →
      env.save (rewrite_document env.enc (settingsFor level) env.pages) =
        .fail part →
      (compress_pdf_file env fs input outOpt level).2 = input ∧
      (resolveOutput input outOpt ≠ input →
        (compress_pdf_file env fs input outOpt level).1
          (resolveOutput input outOpt) = none)) := by
  refine ⟨?_, ?_, ?_, ?_⟩
  · cases hdeps : env.deps with
    | false =>
      rw [compress_deps_missing env fs input outOpt level hdeps]
      exact ⟨m, hin⟩
    | true =>
      cases hopen : env.openOk with
      | false =>
        rw [compress_open_failed env fs input outOpt level hdeps hopen]
        refine ⟨m, ?_⟩
        show (cleanup fs input _) input = some m
        rw [cleanup_preserves_input]
        exact hin
      | true =>
        rw [compress_eq_finalize env fs input outOpt level hdeps hopen]
        exact finalize_result_exists _ _ _ _ m hin
  · exact fun h => compress_deps_missing env fs input outOpt level h
  · intro hdeps hopen
    rw [compress_open_failed env fs input outOpt level hdeps hopen]
    exact ⟨rfl, fun hne => cleanup_output_none fs input _ hne⟩
  · intro part hdeps hopen hsave
    rw [compress_eq_finalize env fs input outOpt level hdeps hopen, hsave]
    exact finalize_fail_cleanup fs input _ part

/-- Witness for C1: with PyMuPDF's open raising, the call returns the
original input path. -/
theorem compress_error_fallback_witness :
    (compress_pdf_file
      ⟨true, false, [], fun _ _ => ⟨1, "x", none⟩, fun _ => .ok 1⟩
      (FS.insert FS.empty "in.pdf" 100) "in.pdf" (some "out.pdf") 3).2 =
      "in.pdf" :=
  ((compress_error_fallback
    ⟨true, false, [], fun _ _ => ⟨1, "x", none⟩, fun _ => .ok 1⟩
    (FS.insert FS.empty "in.pdf" 100) "in.pdf" (some "out.pdf") 3 100
    rfl).2.2.1 rfl rfl).1

/-- C2: after a successful save to a distinct output path, the saved
output size is compared with the input size: if smaller, the output path
is returned (and holds a file of that size); otherwise the newly written
output file is deleted and the original input path is returned; in both
cases the size of the file at the returned path is at most the input
size. -/
theorem size_comparison (env : CompressEnv) (fs : FS) (input output : String)
    (outOpt : Option String) (level : Int) (n m : Nat)
    (hdeps : env.deps = true) (hopen : env.openOk = true)
    (hout : output = resolveOutput input outOpt) (hne : output ≠ input)
    (hsave : env.save (rewrite_document env.enc (settingsFor level) env.pages) =
      .ok n)
    (hin : fs input = some m) :
    (n < m → (compress_pdf_file env fs input outOpt level).2 = output ∧
      (compress_pdf_file env fs input outOpt level).1 output = some n) ∧
    (m ≤ n → (compress_pdf_file env fs input outOpt level).2 = input ∧
      (compress_pdf_file env fs input outOpt level).1 output = none ∧
      (compress_pdf_file env fs input outOpt level).1 input = some m) ∧
    (∀ sz, (compress_pdf_file env fs input outOpt level).1
      ((compress_pdf_file env fs input outOpt level).2) = some sz →
      sz ≤ m) := by
  subst hout
  rw [compress_eq_finalize env fs input outOpt level hdeps hopen, hsave]
  have h1 : (FS.insert fs (resolveOutput input outOpt) n) input = some m := by
    rw [FS.insert_ne _ _ _ _ (Ne.symm hne)]
    exact hin
  refine ⟨?_, ?_, ?_⟩
  · intro hnm
    simp [finalize, h1, hnm, FS.insert_self]
  · intro hmn
    have hnm : ¬ n < m := Nat.not_lt.mpr hmn
    refine ⟨?_, ?_, ?_⟩
    · simp [finalize, h1, hnm, hne]
    · simp [finalize, h1, hnm, hne, FS.erase_self]
    · simp [finalize, h1, hnm, hne, FS.erase_ne _ _ _ (Ne.symm hne), hin]
  · intro sz
    by_cases hnm : n < m
    · simp only [finalize, h1, hnm, if_true, reduceIte]
      rw [FS.insert_self]
      intro h
      cases h
      exact Nat.le_of_lt hnm
    · simp only [finalize, h1, hnm, reduceIte, if_neg, hne, ne_eq,
        not_false_iff, if_true]
      rw [FS.erase_ne _ _ _ (Ne.symm hne), h1]
      intro h
      cases h
      exact Nat.le_refl m

/-- Witness for C2: a 100-byte input saved as a 50-byte output yields the
output path holding 50 bytes. -/
theorem size_comparison_witness :
    (compress_pdf_file
      ⟨true, true, [], fun _ _ => ⟨1, "x", none⟩, fun _ => .ok 50⟩
      (FS.insert FS.empty "in.pdf" 100) "in.pdf" (some "out.pdf") 3).2 =
      "out.pdf" ∧
    (compress_pdf_file
      ⟨true, true, [], fun _ _ => ⟨1, "x", none⟩, fun _ => .ok 50⟩
      (FS.insert FS.empty "in.pdf" 100) "in.pdf" (some "out.pdf") 3).1
      "out.pdf" = some 50 :=
  (size_comparison
    ⟨true, true, [], fun _ _ => ⟨1, "x", none⟩, fun _ => .ok 50⟩
    (FS.insert FS.empty "in.pdf" 100) "in.pdf" "out.pdf" (some "out.pdf") 3
    50 100 rfl rfl rfl (by decide) rfl rfl).1 (by decide)

end PdfCompressor
